import Mathlib

/-!
Shallow embedding of `main.go` of Lorenz-Possnig/microproject-go.

Modelling conventions:
* A Go string is modelled as its sequence of runes, `GoStr := List Char`
  (Go strings hold UTF-8; all inputs of interest decode cleanly).
* `len(s)` on a Go string is the UTF-8 *byte* length, modelled by `utf8Len`.
* Euro amounts (`float32` accumulated into `float64` in the source) are
  modelled as rationals; every amount appearing in the development below is a
  small integral number of cents, on which the floating-point operations of
  the source are exact.
* Go `unicode.ToLower` / `unicode.IsDigit` are modelled exactly on the
  Latin-1 range (the fast path of the Go implementation); beyond Latin-1 only
  the initial ranges of the Unicode Nd table are included, which is all the
  development touches.  The order-theoretic facts below do not depend on the
  lowering table at all.
-/

/-- A Go string, as its sequence of runes. -/
abbrev GoStr : Type := List Char

/-- Models `unicode.ToLower` on the ASCII range (`'A'..'Z'` map down by 32);
identity elsewhere.  The Go function additionally lowers non-ASCII letters,
which no statement below depends on. -/
def goToLower (c : Char) : Char :=
  if 65 ≤ c.toNat ∧ c.toNat ≤ 90 then Char.ofNat (c.toNat + 32) else c

/-- The code point of the lowered rune; `lessLower` compares these. -/
def lowerCode (c : Char) : Nat := (goToLower c).toNat

/-- Models `lessLower` (main.go:74-96): decode one rune from each string; an
exhausted `sb` gives `false`, an exhausted `sa` gives `true`; otherwise
compare the lowered runes, recursing on equality. -/
def lessLower : GoStr → GoStr → Bool
  | _, [] => false
  | [], _ :: _ => true
  | a :: sa, b :: sb =>
    if lowerCode a ≠ lowerCode b then decide (lowerCode a < lowerCode b)
    else lessLower sa sb

/-- Models `strings.ToLower` by lowering each rune. -/
def toLowerStr (s : GoStr) : GoStr := s.map goToLower

/-- Byte count of the UTF-8 encoding of one rune. -/
def utf8Size (c : Char) : Nat :=
  if c.toNat < 0x80 then 1
  else if c.toNat < 0x800 then 2
  else if c.toNat < 0x10000 then 3
  else 4

/-- Go `len(s)` on a string: its UTF-8 byte length. -/
def utf8Len (s : GoStr) : Nat := (s.map utf8Size).sum

/-- Models `unicode.IsDigit`: on Latin-1 (the Go fast path) exactly
`'0' ≤ c ≤ '9'`; beyond Latin-1, membership in the Unicode Nd table, of which
the initial ranges (Arabic-Indic through NKo and Devanagari digits) are
included here — the later ranges of Go's table are not touched below. -/
def goIsDigit (c : Char) : Bool :=
  if c.toNat ≤ 0xFF then decide (48 ≤ c.toNat ∧ c.toNat ≤ 57)
  else decide ((0x660 ≤ c.toNat ∧ c.toNat ≤ 0x669) ∨
               (0x6F0 ≤ c.toNat ∧ c.toNat ≤ 0x6F9) ∨
               (0x7C0 ≤ c.toNat ∧ c.toNat ≤ 0x7C9) ∨
               (0x966 ≤ c.toNat ∧ c.toNat ≤ 0x96F))

/-- An ASCII decimal digit `'0'..'9'` (code points 48-57): the plain reading
of "decimal digit" in the specification. -/
def asciiDigit (c : Char) : Bool := decide (48 ≤ c.toNat ∧ c.toNat ≤ 57)

/-- Models `isValidQuarter` (main.go:152-162): reject unless `len(quarter)`
is 5 (bytes); then every rune must pass `unicode.IsDigit`. -/
def isValidQuarter (quarter : GoStr) : Bool :=
  if utf8Len quarter ≠ 5 then false
  else quarter.all goIsDigit

/-- The transaction record (main.go:33-39).  `Euro` is `float32` in the
source, accumulated into `float64`; modelled as a rational, exact on the
integral-cent values of this development. -/
structure transaction where
  Rechtstraeger : GoStr
  Quartal : GoStr
  Bekanntgabe : Nat
  Medieninhaber : GoStr
  Euro : ℚ
deriving DecidableEq, Repr

/-- Accessor (main.go:126). -/
def getRechtstraeger (t : transaction) : GoStr := t.Rechtstraeger

/-- Accessor (main.go:128). -/
def getMedieninhaber (t : transaction) : GoStr := t.Medieninhaber

/-- Accessor (main.go:130). -/
def getQuartal (t : transaction) : GoStr := t.Quartal

/-- The value of a digit string, most significant digit first: the
accumulation loop of `strconv.ParseUint`. -/
def digitsToNat (s : GoStr) : Nat :=
  s.foldl (fun acc c => acc * 10 + (c.toNat - 48)) 0

/-- Models `strconv.ParseUint(s, 10, 8)`: no sign is permitted, every rune
must be a decimal digit `0`-`9`, the string must be non-empty, and the value
must fit 8 bits (≤ 255); every other input is an error (`none`; values past
the 64-bit cutoff are a range error in Go and exceed 255 here either way). -/
def goParseUint8 (s : GoStr) : Option Nat :=
  if s = [] then none
  else if s.all asciiDigit then
    if digitsToNat s ≤ 255 then some (digitsToNat s) else none
  else none

/-- The `stringFloatPair` record (main.go:245-248). -/
structure stringFloatPair where
  str : GoStr
  value : ℚ
deriving DecidableEq, Repr

/-- A Go `map[string]float64`, modelled as an association list in
first-encounter key order. -/
abbrev GoMap : Type := List (GoStr × ℚ)

/-- One grouping-map update: `m[key] = old + v`, or insertion on first
encounter (main.go:291-295 and the `+=` of main.go:410). -/
def addToMap (m : GoMap) (k : GoStr) (v : ℚ) : GoMap :=
  match m with
  | [] => [(k, v)]
  | (k2, v2) :: rest =>
    if k2 = k then (k2, v2 + v) :: rest else (k2, v2) :: addToMap rest k v

/-- The grouping loop of `topFeature.Run` (main.go:285-296): skip records of
another paragraph, accumulate `Euro` per mapped key.  Go map iteration order
is unspecified; the association list fixes first-encounter order, and every
ranked output below is independent of that choice because the summed values
are pairwise distinct. -/
def groupSum (mapper : transaction → GoStr) (bekanntgabe : Nat)
    (data : List transaction) : GoMap :=
  data.foldl
    (fun m t => if t.Bekanntgabe ≠ bekanntgabe then m
                else addToMap m (mapper t) t.Euro) []

/-- Insertion into a list sorted by strictly descending `value`. -/
def insertDesc (p : stringFloatPair) :
    List stringFloatPair → List stringFloatPair
  | [] => [p]
  | q :: rest =>
    if q.value < p.value then p :: q :: rest else q :: insertDesc p rest

/-- Models `sort.Slice(slice, value > value)` (main.go:301, 368): the unstable sort
yields some order sorted by descending value; with pairwise-distinct values
that order is unique and insertion sort realizes it. -/
def sortDesc : List stringFloatPair → List stringFloatPair
  | [] => []
  | p :: rest => insertDesc p (sortDesc rest)

/-- Decimal digits of a natural number, via fuel (always sufficient at
`n + 1`); serves `%d` and the integer part of `%.2f`. -/
def natToStrAux : Nat → Nat → GoStr
  | 0, _ => []
  | fuel + 1, n =>
    if n = 0 then []
    else natToStrAux fuel (n / 10) ++ [Char.ofNat (48 + n % 10)]

/-- Decimal rendering of a natural number. -/
def natToStr (n : Nat) : GoStr := if n = 0 then ['0'] else natToStrAux (n + 1) n

/-- The `fmt` right-alignment to a minimum width (`%3d`, `%Ns`, `%M.2f`). -/
def padLeft (w : Nat) (s : GoStr) : GoStr :=
  List.replicate (w - s.length) ' ' ++ s

/-- Models `%.2f` of a non-negative amount that is an exact number of cents (every
amount in this development; general float rounding is not modelled). -/
def fmt2f (v : ℚ) : GoStr :=
  natToStr ((v * 100).floor.toNat / 100) ++
    ('.' :: (if (v * 100).floor.toNat % 100 < 10
             then '0' :: natToStr ((v * 100).floor.toNat % 100)
             else natToStr ((v * 100).floor.toNat % 100)))

/-- Models `int(math.Log10(v)) + 1` on the ranking maximum (main.go:302, 369): the
count of integer digits for `v ≥ 1`; for `0 < v < 1` the negative logarithm
truncates toward zero, giving 1.  For `v ≤ 0` Go's conversion of `-Inf`/`NaN`
is platform-defined; modelled as 1 and never reached below. -/
def floatWidth (v : ℚ) : Nat :=
  if 1 ≤ v then (natToStr v.floor.toNat).length else 1

/-- The longest group name over the full ranked slice (main.go:303-309). -/
def maxStrLen (l : List stringFloatPair) : Nat :=
  l.foldl (fun acc p => max acc p.str.length) 0

/-- One report row, formatted `"\t%3d. %Ns - %M.2f€"` (main.go:311-313, 378-380). -/
def rowFmt (maxS maxF idx : Nat) (p : stringFloatPair) : GoStr :=
  '\t' :: (padLeft 3 (natToStr (idx + 1)) ++
    ('.' :: ' ' :: padLeft maxS p.str) ++
    (' ' :: '-' :: ' ' :: padLeft maxF (fmt2f p.value)) ++ ['€'])

/-- The row-printing loop, 1-indexed ranks. -/
def rankRows (maxS maxF idx : Nat) : List stringFloatPair → List GoStr
  | [] => []
  | p :: rest => rowFmt maxS maxF idx p :: rankRows maxS maxF (idx + 1) rest

/-- Observable outcome of one command: a validation message followed by an
early return, a runtime fault (which crashes the process), or the lines
printed by a completed run. -/
inductive runOutcome where
  | invalid (msg : GoStr)
  | faulted (msg : GoStr)
  | printed (lines : List GoStr)
deriving DecidableEq, Repr

/-- Models `topFeature.Run` (main.go:250-314).  The `": %v"` tail of the
strconv error interpolation is elided from the validation messages.  After
grouping and sorting, the source reads `slice[0].value` — faulting on an
empty slice — and ranges over `slice[0:amount]` — faulting when `amount`
exceeds the slice length, which equals its capacity. -/
def topRun (args : List GoStr) (data : List transaction) : runOutcome :=
  match args with
  | [arg0, arg1, arg2] =>
    match goParseUint8 arg0 with
    | none => .invalid (("Value ".toList) ++ arg0 ++
        (" for parameter 1 is invalid".toList))
    | some amount =>
      let mapper? : Option (transaction → GoStr) :=
        if toLowerStr arg1 = ("payers".toList) then some getRechtstraeger
        else if toLowerStr arg1 = ("recipients".toList) then
          some getMedieninhaber
        else none
      match mapper? with
      | none => .invalid (("Value ".toList) ++ arg1 ++
          (" for parameter 2 is invalid".toList))
      | some mapper =>
        match goParseUint8 arg2 with
        | none => .invalid (("Value ".toList) ++ arg2 ++
            (" for parameter 3 is invalid".toList))
        | some bekanntgabe =>
          if amount = 0 then
            .invalid ("is not a valid input for parameter amount".toList)
          else if bekanntgabe ≠ 2 ∧ bekanntgabe ≠ 4 ∧ bekanntgabe ≠ 31 then
            .invalid ("is not a valid input for parameter bekanntgabe".toList)
          else
            let slice := sortDesc ((groupSum mapper bekanntgabe data).map
              fun kv => ⟨kv.1, kv.2⟩)
            match slice with
            | [] => .faulted ("runtime error: index out of range".toList)
            | top0 :: _ =>
              if slice.length < amount then
                .faulted ("runtime error: slice bounds out of range".toList)
              else
                .printed (rankRows (maxStrLen slice) (floatWidth top0.value) 0
                  (slice.take amount))
  | _ => .invalid ("Wrong syntax for command top".toList)

/-- Models `printAll` (main.go:357-381), the renderer of `details` sections;
returns the printed rows.  Unlike `topFeature.Run`, it guards the empty
map. -/
def printAll (m : GoMap) : List GoStr :=
  if m.length = 0 then []
  else
    let slice := sortDesc (m.map fun kv => ⟨kv.1, kv.2⟩)
    match slice with
    | [] => []
    | top0 :: _ => rankRows (maxStrLen slice) (floatWidth top0.value) 0 slice

/-- The dataset of claim C8: payer `A` 10€ under §2, payer `B` 30€ under §2,
payer `A` 5€ under §4. -/
def exampleStore : List transaction :=
  [⟨"A".toList, "20231".toList, 2, "MA".toList, 10⟩,
   ⟨"B".toList, "20231".toList, 2, "MB".toList, 30⟩,
   ⟨"A".toList, "20231".toList, 4, "MA".toList, 5⟩]

/-- Models `strings.Contains`: `sub` occurs as a contiguous substring. -/
def containsStr (sub : GoStr) : GoStr → Bool
  | [] => sub.isEmpty
  | c :: rest => sub.isPrefixOf (c :: rest) || containsStr sub rest

/-- The match loop of `search` (main.go:336-342): the distinct mapped
strings whose lowering contains the search term, in first-encounter order
(the key set of the Go map). -/
def searchSet (mapper : transaction → GoStr) (term : GoStr)
    (data : List transaction) : List GoStr :=
  data.foldl
    (fun set t =>
      if containsStr term (toLowerStr (mapper t)) then
        (if set.contains (mapper t) then set else set ++ [mapper t])
      else set) []

/-- Insertion into a list sorted by `lessLower`. -/
def insertLessLower (s : GoStr) : List GoStr → List GoStr
  | [] => [s]
  | x :: rest =>
    if lessLower s x then s :: x :: rest else x :: insertLessLower s rest

/-- Models `sort.Slice(slice, lessLower)` (main.go:347): one arrangement sorted by
the comparator (the unstable sort consumes an unspecified map-iteration
order). -/
def sortLessLower : List GoStr → List GoStr
  | [] => []
  | s :: rest => insertLessLower s (sortLessLower rest)

/-- The `search` row loop, formatted `"\t%d. %s"`, 1-indexed (main.go:348-350). -/
def searchRows (idx : Nat) : List GoStr → List GoStr
  | [] => []
  | s :: rest =>
    ('\t' :: (natToStr (idx + 1) ++ ('.' :: ' ' :: s))) :: searchRows (idx + 1) rest

/-- Models `searchFeature.Run` (main.go:320-351).  The invalid-role branch
of the source prints its message but is missing a `return`: execution
continues with a nil `mapper`, so the first loop iteration faults whenever
the store is non-empty; with an empty store the command completes having
printed only that message. -/
def searchRun (args : List GoStr) (data : List transaction) : runOutcome :=
  match args with
  | arg0 :: arg1 :: rest =>
    let mapper? : Option (transaction → GoStr) :=
      if arg0 = ("payers".toList) then some getRechtstraeger
      else if arg0 = ("recipients".toList) then some getMedieninhaber
      else none
    match mapper? with
    | some mapper =>
      let searchTerm := toLowerStr (List.intercalate [' '] (arg1 :: rest))
      .printed (searchRows 0 (sortLessLower (searchSet mapper searchTerm data)))
    | none =>
      if data.isEmpty then
        .printed [("Value ".toList) ++ arg0 ++
          (" for parameter 2 is invalid".toList)]
      else
        .faulted
          ("runtime error: invalid memory address or nil pointer dereference".toList)
  | _ => .invalid ("At least two parameters need to be provided".toList)

/-- Value of a key in a grouping map, 0 when absent (an absent key prints no
row and contributes nothing). -/
def mapVal (m : GoMap) (k : GoStr) : ℚ :=
  match m with
  | [] => 0
  | (k2, v) :: rest => if k2 = k then v else mapVal rest k

/-- Sum of the Euro amounts of a list of transactions. -/
def euroSum (l : List transaction) : ℚ := (l.map transaction.Euro).sum

/-- The match-and-bucket loop of `detailsFeature.Run` (main.go:407-412):
a record whose `mapper` field equals the organization exactly is added, via
`+=`, to the bucket of its paragraph, keyed by its `reverseMapper` field.
A matching record with a paragraph outside {2, 4, 31} writes to a nil inner
map, which faults in Go. -/
def detailsLoop (mapper reverseMapper : transaction → GoStr) (org : GoStr) :
    List transaction → GoMap → GoMap → GoMap →
      Except GoStr (GoMap × GoMap × GoMap)
  | [], m2, m4, m31 => .ok (m2, m4, m31)
  | t :: rest, m2, m4, m31 =>
    if mapper t = org then
      if t.Bekanntgabe = 2 then
        detailsLoop mapper reverseMapper org rest
          (addToMap m2 (reverseMapper t) t.Euro) m4 m31
      else if t.Bekanntgabe = 4 then
        detailsLoop mapper reverseMapper org rest m2
          (addToMap m4 (reverseMapper t) t.Euro) m31
      else if t.Bekanntgabe = 31 then
        detailsLoop mapper reverseMapper org rest m2 m4
          (addToMap m31 (reverseMapper t) t.Euro)
      else .error ("assignment to entry in nil map".toList)
    else detailsLoop mapper reverseMapper org rest m2 m4 m31

/-- Models `detailsFeature.Run` (main.go:383-419): only a fully empty
argument list is rejected; the organization name is the arguments after the
role joined by single spaces; the three labeled sections are always
printed. -/
def detailsRun (args : List GoStr) (data : List transaction) : runOutcome :=
  match args with
  | [] => .invalid ("At least one parameter needs to be provided".toList)
  | arg0 :: rest =>
    let mappers? : Option ((transaction → GoStr) × (transaction → GoStr)) :=
      if arg0 = ("payers".toList) then
        some (getRechtstraeger, getMedieninhaber)
      else if arg0 = ("recipients".toList) then
        some (getMedieninhaber, getRechtstraeger)
      else none
    match mappers? with
    | none => .invalid (("Value ".toList) ++ arg0 ++
        (" for parameter 2 is invalid".toList))
    | some (mapper, reverseMapper) =>
      match detailsLoop mapper reverseMapper (List.intercalate [' '] rest)
          data [] [] [] with
      | .error msg => .faulted msg
      | .ok (m2, m4, m31) =>
        .printed ((("\tPayments §2:".toList) :: printAll m2) ++
                  (("\tPayments §4:".toList) :: printAll m4) ++
                  (("\tPayments §31:".toList) :: printAll m31))

/-- Whether an outcome is an argument-validation rejection. -/
def runOutcome.isInvalid : runOutcome → Bool
  | .invalid _ => true
  | _ => false

/-- The zero value of the transaction record: what Go `clear` writes over
each slice element. -/
def zeroTransaction : transaction := ⟨[], [], 0, [], 0⟩

/-- Go `clear` on a `[]transaction` (main.go:232): zeroes every element in
place but keeps the length — it does not truncate the slice. -/
def goClear (l : List transaction) : List transaction :=
  l.map fun _ => zeroTransaction

/-- The records of the successful loads, batches in the given quarter
order. -/
def successRecords (loader : GoStr → Except GoStr (List transaction))
    (qs : List GoStr) : List transaction :=
  (qs.filterMap fun q => (loader q).toOption).flatten

/-- The error causes of the failed loads, in the given quarter order. -/
def failureCauses (loader : GoStr → Except GoStr (List transaction))
    (qs : List GoStr) : List GoStr :=
  qs.filterMap fun q =>
    match loader q with
    | .error e => some e
    | .ok _ => none

/-- Models `loadMultipleData` (main.go:186-213).  `loader` abstracts
`loadData` (quarter validation plus the HTTP fetch and JSON decode — I/O
outside the embedding); `order` is the completion order of the goroutines, a
permutation of `quarters`.  Each success appends its whole batch to the
shared store under the store lock, each failure appends its cause to the
error list under the error lock, and `errors.Join` returns `nil` (`none`)
exactly when no cause was collected. -/
def loadMultipleData (loader : GoStr → Except GoStr (List transaction))
    (quarters order : List GoStr) (data : List transaction) :
    List transaction × Option (List GoStr) :=
  if quarters.isEmpty then
    (data,
     some [("at least one quarter to be loaded must be specified".toList)])
  else
    (data ++ successRecords loader order,
     if (failureCauses loader order).isEmpty then none
     else some (failureCauses loader order))

/-- Models `reloadFeature.Run` (main.go:231-234): Go `clear` on the store
(zeroing, not truncating), then `loadFeature.Run` on the same pointer. -/
def reloadRun (loader : GoStr → Except GoStr (List transaction))
    (quarters order : List GoStr) (prior : List transaction) :
    List transaction × Option (List GoStr) :=
  loadMultipleData loader quarters order (goClear prior)

/-- A concrete loader for the closed instances below: quarter `"20231"`
succeeds with one record, every other quarter fails. -/
def loaderW (q : GoStr) : Except GoStr (List transaction) :=
  if q = ("20231".toList) then
    .ok [⟨"A".toList, "20231".toList, 2, "M".toList, 10⟩]
  else .error ("request failed".toList)

/-- Concrete store for the closed instance of the `details` theorem: one
record of organization `Org` under §2 and one unrelated record. -/
def detailsW_data : List transaction :=
  [⟨"Org".toList, "20231".toList, 2, "R".toList, 10⟩,
   ⟨"X".toList, "20231".toList, 2, "R".toList, 4⟩]

/-! ## Theorems -/

section RatEval

attribute [local semireducible] Rat.add Rat.mul

lemma lessLower_irrefl (a : GoStr) : lessLower a a = false := by
  induction a with
  | nil => rfl
  | cons x xs ih => simp [lessLower, ih]

lemma lessLower_asymm (a b : GoStr) (h : lessLower a b = true) :
    lessLower b a = false := by
  induction a generalizing b with
  | nil =>
    cases b with
    | nil => simp [lessLower] at h
    | cons y ys => rfl
  | cons x xs ih =>
    cases b with
    | nil => simp [lessLower] at h
    | cons y ys =>
      by_cases hxy : lowerCode x = lowerCode y
      · simp [lessLower, hxy] at h ⊢
        exact ih ys h
      · simp [lessLower, hxy] at h
        have hne : lowerCode y ≠ lowerCode x := fun e => hxy e.symm
        simp [lessLower, hne]
        omega

lemma lessLower_trans (a b c : GoStr) (hab : lessLower a b = true)
    (hbc : lessLower b c = true) : lessLower a c = true := by
  induction a generalizing b c with
  | nil =>
    cases c with
    | nil =>
      cases b with
      | nil => simp [lessLower] at hab
      | cons y ys => simp [lessLower] at hbc
    | cons z zs => rfl
  | cons x xs ih =>
    cases b with
    | nil => simp [lessLower] at hab
    | cons y ys =>
      cases c with
      | nil => simp [lessLower] at hbc
      | cons z zs =>
        by_cases hxy : lowerCode x = lowerCode y
        · by_cases hyz : lowerCode y = lowerCode z
          · simp [lessLower, hxy] at hab
            simp [lessLower, hyz] at hbc
            have hxz : lowerCode x = lowerCode z := hxy.trans hyz
            simp [lessLower, hxz]
            exact ih ys zs hab hbc
          · simp [lessLower, hyz] at hbc
            have hxz : lowerCode x ≠ lowerCode z := by
              rw [hxy]; exact hyz
            simp [lessLower, hxz]
            omega
        · simp [lessLower, hxy] at hab
          by_cases hyz : lowerCode y = lowerCode z
          · have hxz : lowerCode x ≠ lowerCode z := by
              rw [← hyz]; exact hxy
            simp [lessLower, hxz]
            omega
          · simp [lessLower, hyz] at hbc
            have hxz : lowerCode x ≠ lowerCode z := by omega
            simp [lessLower, hxz]
            omega

/-- C6: the case-insensitive comparator `lessLower` is a strict order —
irreflexive, antisymmetric (never both `a < b` and `b < a`), transitive —
and on the concrete inputs of the claim, `lessLower "A" "b"` holds and
`lessLower "b" "B2"` holds (a strict case-folded prefix is less). -/
theorem lessLower_strict_order :
    (∀ a : GoStr, lessLower a a = false) ∧
    (∀ a b : GoStr, lessLower a b = true → lessLower b a = false) ∧
    (∀ a b c : GoStr, lessLower a b = true → lessLower b c = true →
      lessLower a c = true) ∧
    lessLower ("A".toList) ("b".toList) = true ∧
    lessLower ("b".toList) ("B2".toList) = true :=
  ⟨lessLower_irrefl, lessLower_asymm, lessLower_trans, by decide, by decide⟩

/-- Closed instance of `lessLower_strict_order`: antisymmetry applied to the
concrete pair of the claim. -/
theorem lessLower_strict_order_witness :
    lessLower ("b".toList) ("A".toList) = false :=
  lessLower_strict_order.2.1 ("A".toList) ("b".toList) (by decide)

lemma utf8Len_of_ascii (s : GoStr) (h : ∀ c ∈ s, c.toNat < 128) :
    utf8Len s = s.length := by
  induction s with
  | nil => rfl
  | cons c cs ih =>
    have hc : c.toNat < 128 := h c (by simp)
    have hcs := ih fun x hx => h x (List.mem_cons_of_mem c hx)
    have h1 : utf8Size c = 1 := by
      simp [utf8Size]
      omega
    simp [utf8Len, h1] at hcs ⊢
    omega

/-- C7 counterexample: on `"12٣4"` (runes `'1' '2' U+0663 '4'`, UTF-8 byte
length 5 but only 4 characters), `isValidQuarter` returns `true` — `len` in
Go counts bytes and `unicode.IsDigit` accepts the Arabic-Indic digit — while
the claim's right-hand side (5 characters, each a decimal digit `0`-`9`) is
false.  So the claimed equivalence fails at this input. -/
theorem isValidQuarter_claim_cex :
    ¬ (isValidQuarter ['1', '2', '٣', '4'] = true ↔
        (['1', '2', '٣', '4'] : GoStr).length = 5 ∧
        (['1', '2', '٣', '4'] : GoStr).all asciiDigit = true) := by
  decide

/-- C7 (amended): `isValidQuarter` accepts exactly the strings of UTF-8 byte
length 5 all of whose runes pass `unicode.IsDigit`; restricted to ASCII
strings this is precisely the claim: length 5 and every character a decimal
digit `0`-`9`. -/
theorem isValidQuarter_ascii (s : GoStr) (h : ∀ c ∈ s, c.toNat < 128) :
    isValidQuarter s = true ↔ (s.length = 5 ∧ s.all asciiDigit = true) := by
  have hdig : ∀ c ∈ s, goIsDigit c = asciiDigit c := by
    intro c hc
    have hlt := h c hc
    have hle : c.toNat ≤ 255 := by omega
    simp [goIsDigit, asciiDigit, hle]
  have hall : s.all goIsDigit = s.all asciiDigit := by
    rw [Bool.eq_iff_iff]
    simp only [List.all_eq_true]
    exact ⟨fun H c hc => ((hdig c hc).symm.trans (H c hc)),
           fun H c hc => ((hdig c hc).trans (H c hc))⟩
  unfold isValidQuarter
  rw [utf8Len_of_ascii s h, hall]
  by_cases h5 : s.length = 5
  · simp [h5]
  · simp [h5]

/-- Closed instance of `isValidQuarter_ascii` at the ASCII quarter code
`"20231"`. -/
theorem isValidQuarter_ascii_witness :
    isValidQuarter ("20231".toList) = true ↔
      (("20231".toList : GoStr).length = 5 ∧
        ("20231".toList : GoStr).all asciiDigit = true) :=
  isValidQuarter_ascii ("20231".toList) (by decide)

/-- C1 (code bug): with a single §2 group (`B`, 30€), the valid invocation
`top 2 payers 2` does not truncate to the one existing group: the source
slices `slice[0:2]` past the slice capacity and the command faults. -/
theorem top_overcount_fault :
    topRun [("2".toList), ("payers".toList), ("2".toList)]
      [⟨"B".toList, "20231".toList, 2, "M".toList, 30⟩] =
    .faulted ("runtime error: slice bounds out of range".toList) := by
  decide

/-- C2 (code bug): on an empty grouping result `topFeature.Run` reads
`slice[0].value` for the column width and faults instead of printing zero
rows; `printAll`, the renderer of `details`, does guard the empty map and
prints nothing. -/
theorem top_empty_fault :
    topRun [("1".toList), ("payers".toList), ("2".toList)] [] =
      .faulted ("runtime error: index out of range".toList) ∧
    printAll [] = [] := by
  decide

/-- C8: on the dataset `{(A,10,§2), (B,30,§2), (A,5,§4)}`, `top 1 payers 2`
prints exactly the row ranked 1 for `B` at 30.00€, and `top 2 payers 2`
prints `[B:30, A:10]` in that order, the §4 record of `A` excluded from the
sums (rows carry the leading tab and 3-wide rank of the `%3d` format). -/
theorem top_example_dataset :
    topRun [("1".toList), ("payers".toList), ("2".toList)] exampleStore =
      .printed [("\t  1. B - 30.00€".toList)] ∧
    topRun [("2".toList), ("payers".toList), ("2".toList)] exampleStore =
      .printed [("\t  1. B - 30.00€".toList), ("\t  2. A - 10.00€".toList)] := by
  decide

/-- C10: the count argument goes through `strconv.ParseUint(·, 10, 8)`: every
all-digit count above 255 and every `-`-prefixed (negative) count is rejected
with a validation message on parameter 1 and no rows are printed, whatever
the other two arguments and the store contents. -/
theorem top_count_range (s x y : GoStr) (data : List transaction)
    (h : (s ≠ [] ∧ s.all asciiDigit = true ∧ 255 < digitsToNat s) ∨
         (∃ t, s = '-' :: t)) :
    topRun [s, x, y] data =
      .invalid (("Value ".toList) ++ s ++
        (" for parameter 1 is invalid".toList)) := by
  have hp : goParseUint8 s = none := by
    rcases h with ⟨hne, hall, hgt⟩ | ⟨t, rfl⟩
    · simp [goParseUint8, hne, hall]
      omega
    · have hd : asciiDigit '-' = false := by decide
      simp [goParseUint8, List.all_cons, hd]
  simp [topRun, hp]

/-- Closed instances of `top_count_range` at the counts `256` and `-1`. -/
theorem top_count_range_witness :
    topRun [("256".toList), ("payers".toList), ("2".toList)] [] =
      .invalid (("Value ".toList) ++ ("256".toList) ++
        (" for parameter 1 is invalid".toList)) ∧
    topRun [("-1".toList), ("payers".toList), ("2".toList)] [] =
      .invalid (("Value ".toList) ++ ("-1".toList) ++
        (" for parameter 1 is invalid".toList)) :=
  ⟨top_count_range ("256".toList) ("payers".toList) ("2".toList) []
      (Or.inl (by decide)),
   top_count_range ("-1".toList) ("payers".toList) ("2".toList) []
      (Or.inr ⟨"1".toList, by decide⟩)⟩

/-- C4 (code bug): the invalid-role branch of `searchFeature.Run` is missing
a `return`: on any non-empty store, `search foo x` prints the validation
message and then calls the nil `mapper` on the first record, crashing the
process instead of aborting only the command. -/
theorem search_invalid_role_fault :
    searchRun [("foo".toList), ("x".toList)]
      [⟨"A".toList, "20231".toList, 2, "M".toList, 10⟩] =
    .faulted
      ("runtime error: invalid memory address or nil pointer dereference".toList) := by
  decide

/-- C3 (code bug): `reloadFeature.Run` clears the store with Go `clear`,
which zeroes the slice elements but keeps the length.  Reloading quarter
`"20231"` over a one-record store yields the zeroed old entry followed by
the fresh record — not the fresh load alone, which a fresh
`loadMultipleData` of the same quarter produces. -/
theorem reload_zeroed_residue :
    reloadRun loaderW [("20231".toList)] [("20231".toList)]
        [⟨"B".toList, "20224".toList, 4, "N".toList, 7⟩] =
      ([zeroTransaction, ⟨"A".toList, "20231".toList, 2, "M".toList, 10⟩],
        none) ∧
    loadMultipleData loaderW [("20231".toList)] [("20231".toList)] [] =
      ([⟨"A".toList, "20231".toList, 2, "M".toList, 10⟩], none) ∧
    ([zeroTransaction, ⟨"A".toList, "20231".toList, 2, "M".toList, 10⟩] ≠
      ([⟨"A".toList, "20231".toList, 2, "M".toList, 10⟩] : List transaction)) := by
  decide

/-- C5: loading `k` quarters of which `f` fail appends to the prior store
exactly the records of the `k−f` successes (up to batch order, which follows
goroutine completion) and reports a joined error with exactly `f` underlying
causes — `none` exactly when `f = 0`; an empty quarter list fails with the
no-quarters error and leaves the store unchanged. -/
theorem loadMultipleData_spec
    (loader : GoStr → Except GoStr (List transaction))
    (quarters order : List GoStr) (prior : List transaction)
    (hperm : order.Perm quarters) :
    (loadMultipleData loader [] [] prior =
      (prior,
        some [("at least one quarter to be loaded must be specified".toList)])) ∧
    (quarters ≠ [] →
      (loadMultipleData loader quarters order prior).1.Perm
          (prior ++ successRecords loader quarters) ∧
      ((loadMultipleData loader quarters order prior).2.getD []).length =
          (failureCauses loader quarters).length ∧
      ((loadMultipleData loader quarters order prior).2 = none ↔
          (failureCauses loader quarters).length = 0)) := by
  refine ⟨rfl, fun hne => ?_⟩
  have hq : quarters.isEmpty = false := by
    cases quarters with
    | nil => exact absurd rfl hne
    | cons a l => rfl
  have hsp : (successRecords loader order).Perm
      (successRecords loader quarters) :=
    (hperm.filterMap _).flatten
  have hlen : (failureCauses loader order).length =
      (failureCauses loader quarters).length :=
    (hperm.filterMap _).length_eq
  by_cases he : (failureCauses loader order).isEmpty
  · have h0 : (failureCauses loader quarters).length = 0 := by
      rw [← hlen]
      simpa [List.isEmpty_iff] using he
    refine ⟨?_, ?_, ?_⟩
    · simp only [loadMultipleData, hq, Bool.false_eq_true, if_false]
      exact List.Perm.append_left prior hsp
    · simp [loadMultipleData, hq, he, h0]
    · simp [loadMultipleData, hq, he, h0]
  · have h0 : (failureCauses loader quarters).length ≠ 0 := by
      rw [← hlen]
      intro hz
      exact he (by simp [List.isEmpty_iff, List.length_eq_zero.mp hz])
    refine ⟨?_, ?_, ?_⟩
    · simp only [loadMultipleData, hq, Bool.false_eq_true, if_false]
      exact List.Perm.append_left prior hsp
    · simp [loadMultipleData, hq, he]
      exact hlen
    · simp [loadMultipleData, hq, he, h0]

/-- Closed instance of `loadMultipleData_spec`: quarters `"20231"` (succeeds
with one record) and `"99999"` (fails), completing in reverse order, over a
one-record prior store; and the empty-list case. -/
theorem loadMultipleData_spec_witness :
    (loadMultipleData loaderW [] [] [zeroTransaction] =
      ([zeroTransaction],
        some [("at least one quarter to be loaded must be specified".toList)])) ∧
    ((loadMultipleData loaderW [("20231".toList), ("99999".toList)]
        [("99999".toList), ("20231".toList)] [zeroTransaction]).1.Perm
        ([zeroTransaction] ++
          successRecords loaderW [("20231".toList), ("99999".toList)]) ∧
      ((loadMultipleData loaderW [("20231".toList), ("99999".toList)]
          [("99999".toList), ("20231".toList)]
          [zeroTransaction]).2.getD []).length =
        (failureCauses loaderW [("20231".toList), ("99999".toList)]).length ∧
      ((loadMultipleData loaderW [("20231".toList), ("99999".toList)]
          [("99999".toList), ("20231".toList)] [zeroTransaction]).2 = none ↔
        (failureCauses loaderW
          [("20231".toList), ("99999".toList)]).length = 0)) :=
  ⟨(loadMultipleData_spec loaderW [("20231".toList), ("99999".toList)]
      [("99999".toList), ("20231".toList)] [zeroTransaction]
      (List.Perm.swap ("20231".toList) ("99999".toList) [])).1,
   (loadMultipleData_spec loaderW [("20231".toList), ("99999".toList)]
      [("99999".toList), ("20231".toList)] [zeroTransaction]
      (List.Perm.swap ("20231".toList) ("99999".toList) [])).2
      (List.cons_ne_nil _ _)⟩

lemma mapVal_addToMap (m : GoMap) (k c : GoStr) (v : ℚ) :
    mapVal (addToMap m k v) c = mapVal m c + (if k = c then v else 0) := by
  induction m with
  | nil =>
    by_cases hkc : k = c
    · simp [addToMap, mapVal, hkc]
    · simp [addToMap, mapVal, hkc]
  | cons p rest ih =>
    obtain ⟨k2, v2⟩ := p
    by_cases h2 : k2 = k
    · subst h2
      by_cases hkc : k2 = c
      · simp [addToMap, mapVal, hkc]
      · simp [addToMap, mapVal, hkc]
    · by_cases hkc : k2 = c
      · have hk : ¬ k = c := fun e => h2 (hkc.trans e.symm)
        have h2c : ¬ c = k := fun e => h2 (hkc.trans e)
        simp [addToMap, h2, mapVal, hkc, hk, h2c]
      · simp [addToMap, h2, mapVal, hkc, ih]

lemma detailsLoop_bucket2 (mapper reverseMapper : transaction → GoStr)
    (org c : GoStr) :
    ∀ (data : List transaction) (m2 m4 m31 r2 r4 r31 : GoMap),
      detailsLoop mapper reverseMapper org data m2 m4 m31 =
          .ok (r2, r4, r31) →
      mapVal r2 c = mapVal m2 c +
        euroSum (data.filter fun t =>
          decide (mapper t = org ∧ t.Bekanntgabe = 2 ∧
            reverseMapper t = c)) := by
  intro data
  induction data with
  | nil =>
    intro m2 m4 m31 r2 r4 r31 h
    simp [detailsLoop] at h
    obtain ⟨h2, _, _⟩ := h
    simp [euroSum, h2]
  | cons t rest ih =>
    intro m2 m4 m31 r2 r4 r31 h
    by_cases hm : mapper t = org
    · by_cases hb2 : t.Bekanntgabe = 2
      · simp only [detailsLoop, hm, hb2, if_true, if_pos] at h
        have hrec := ih _ _ _ _ _ _ h
        rw [hrec, mapVal_addToMap]
        by_cases hrc : reverseMapper t = c
        · simp [List.filter_cons, hm, hb2, hrc, euroSum]
          ring
        · simp [List.filter_cons, hm, hb2, hrc, euroSum]
      · by_cases hb4 : t.Bekanntgabe = 4
        · simp only [detailsLoop, hm, hb2, hb4, if_true, if_false,
            if_pos, if_neg] at h
          have hrec := ih _ _ _ _ _ _ h
          rw [hrec]
          simp [List.filter_cons, hb2]
        · by_cases hb31 : t.Bekanntgabe = 31
          · simp only [detailsLoop, hm, hb2, hb4, hb31, if_true, if_false,
              if_pos, if_neg] at h
            have hrec := ih _ _ _ _ _ _ h
            rw [hrec]
            simp [List.filter_cons, hb2]
          · simp [detailsLoop, hm, hb2, hb4, hb31] at h
    · simp only [detailsLoop, hm, if_neg, if_false] at h
      have hrec := ih _ _ _ _ _ _ h
      rw [hrec]
      simp [List.filter_cons, hm]

/-- C9 (amended): `detailsFeature.Run` rejects only a fully empty argument
list ("At least one parameter" counts the role itself); given just a role
token it proceeds with the empty organization name.  For a valid role the
organization is the remaining arguments joined with single spaces, and a
transaction contributes iff its role field equals that name exactly —
case-sensitive equality, not substring — its amount accumulating into the
§2 bucket of its counterparty as the sum over that exact-equality filter. -/
theorem detailsRun_amended :
    (∀ data : List transaction, detailsRun [] data =
      .invalid ("At least one parameter needs to be provided".toList)) ∧
    (∀ (data : List transaction) (rest : List GoStr),
      (detailsRun (("payers".toList) :: rest) data).isInvalid = false) ∧
    (∀ (rest : List GoStr) (data : List transaction) (m2 m4 m31 : GoMap)
        (c : GoStr),
      detailsLoop getRechtstraeger getMedieninhaber
          (List.intercalate [' '] rest) data [] [] [] = .ok (m2, m4, m31) →
      mapVal m2 c = euroSum (data.filter fun t =>
        decide (getRechtstraeger t = List.intercalate [' '] rest ∧
          t.Bekanntgabe = 2 ∧ getMedieninhaber t = c))) := by
  refine ⟨fun data => rfl, fun data rest => ?_, fun rest data m2 m4 m31 c h => ?_⟩
  · cases hdl : detailsLoop getRechtstraeger getMedieninhaber
        (List.intercalate [' '] rest) data [] [] [] with
    | error msg => simp [detailsRun, hdl, runOutcome.isInvalid]
    | ok st =>
      obtain ⟨a2, a4, a31⟩ := st
      simp [detailsRun, hdl, runOutcome.isInvalid]
  · have hb := detailsLoop_bucket2 getRechtstraeger getMedieninhaber
      (List.intercalate [' '] rest) c data [] [] [] m2 m4 m31 h
    simpa [mapVal] using hb

/-- Closed instance of `detailsRun_amended` on `detailsW_data`: the empty
invocation is rejected, `details payers` is not, and the §2 bucket of
counterparty `R` for organization `Org` is the exact-equality sum. -/
theorem detailsRun_amended_witness :
    detailsRun [] detailsW_data =
      .invalid ("At least one parameter needs to be provided".toList) ∧
    (detailsRun [("payers".toList)] detailsW_data).isInvalid = false ∧
    mapVal [(("R".toList), (10 : ℚ))] ("R".toList) =
      euroSum (detailsW_data.filter fun t =>
        decide (getRechtstraeger t =
            List.intercalate [' '] [("Org".toList)] ∧
          t.Bekanntgabe = 2 ∧ getMedieninhaber t = ("R".toList))) :=
  ⟨detailsRun_amended.1 detailsW_data,
   detailsRun_amended.2.1 detailsW_data [],
   detailsRun_amended.2.2 [("Org".toList)] detailsW_data
     [(("R".toList), (10 : ℚ))] [] [] ("R".toList) (by rfl)⟩

/-- C9 counterexample: `details payers` — a role token and no organization
words — is not rejected: `len(arguments) < 1` only rejects a fully empty
argument list, so the command proceeds with the empty organization name and
prints the three (empty) section headers. -/
theorem details_role_only_not_rejected :
    (detailsRun [("payers".toList)]
        [⟨"A".toList, "20231".toList, 2, "M".toList, 10⟩]).isInvalid =
      false ∧
    detailsRun [("payers".toList)]
        [⟨"A".toList, "20231".toList, 2, "M".toList, 10⟩] =
      .printed [("\tPayments §2:".toList), ("\tPayments §4:".toList),
        ("\tPayments §31:".toList)] := by
  decide

end RatEval
